import Mathlib

/-!
Verification of the PipeableResult library (TypeScript) against its
specification, via a shallow embedding of the relevant source files:

* `src/result.implementation.ts` — the `ResultImpl` class (constructor,
  `succeed`/`fail` factories, `isSuccess`/`isFailure`, `value`, `error`,
  `unwrap`, `match`, `matchErrors`, `pipe`, `pipeFromArray`,
  `applyOperator`, `handleErrorCase`, `unwrapPromiseInResult`);
* `src/type-guards.ts` — `isResult`, `isError` (discriminant-tag check) and
  a later revision of `ResultImpl` whose `matchErrors` returns the held
  value on Success (modelled as `ResultImplV2.matchErrors`);
* `src/factories.ts` — `succeed`, `defect`/`fail`, `safe`,
  `handleExceptionDuringSafe`;
* `src/operators/operators.ts` and the later operators revision —
  `map`, `mapErr`, `chain`, `chainErr`, `tap`, `catchErr`.

JavaScript runtime values are embedded as the inductive `JSVal`; promises
are embedded denotationally as their settled outcome (`JSAsync`:
`fulfilled v` or `rejected reason`), so "the pipeline awaits p and then
runs f" is `thenF p f`; thrown exceptions are embedded with `Except`
(`Except.error ex` is a JS `throw ex`).  JS truthiness (`if (v)`) is the
`truthy` predicate.
-/

set_option autoImplicit false

mutual

/-- A JavaScript runtime value, restricted to the shapes the library
manipulates: `null`, `undefined`, booleans, numbers, strings, structured
error objects (objects carrying the `ErrorTag` string discriminant,
embedded as `errVal tag data` where `data` stands for the object's other
fields), `ResultImpl` instances, and promises. -/
inductive JSVal : Type where
  | null : JSVal
  | undef : JSVal
  | bool (b : Bool) : JSVal
  | num (n : Int) : JSVal
  | str (s : String) : JSVal
  | errVal (tag : String) (data : JSVal) : JSVal
  | res (r : ResultImpl) : JSVal
  | prom (a : JSAsync) : JSVal

/-- The settled outcome of a promise: fulfilled with a value, or rejected
with a reason.  The library never cancels or re-enters promises, so a
promise is fully described by its outcome. -/
inductive JSAsync : Type where
  | fulfilled (v : JSVal) : JSAsync
  | rejected (reason : JSVal) : JSAsync

/-- The `ResultImpl` object state: the private fields `_value`, `_err`,
`_isFailure` (in this order).  `valueF` and `errF` default to `null`. -/
inductive ResultImpl : Type where
  | mk (valueF : JSVal) (errF : JSVal) (isFailF : Bool) : ResultImpl

end

/-- Field `_value` of a `ResultImpl`. -/
def ResultImpl.valueF : ResultImpl → JSVal
  | .mk v _ _ => v

/-- Field `_err` of a `ResultImpl`. -/
def ResultImpl.errF : ResultImpl → JSVal
  | .mk _ e _ => e

/-- Field `_isFailure` of a `ResultImpl`. -/
def ResultImpl.isFailF : ResultImpl → Bool
  | .mk _ _ b => b

/-- JavaScript truthiness, as used by `if (v)` in the sources: `null`,
`undefined`, `false`, `0` and `""` are falsy; every object (structured
errors, Results, promises) is truthy.  (NaN is not representable here.) -/
def truthy : JSVal → Bool
  | JSVal.null => false
  | JSVal.undef => false
  | JSVal.bool b => b
  | JSVal.num n => n != 0
  | JSVal.str s => s != ""
  | JSVal.errVal _ _ => true
  | JSVal.res _ => true
  | JSVal.prom _ => true

/-- The `ResultImpl` constructor:
`private constructor(v?, e?) { if (v) this._value = v; if (e) { this._err = e; this._isFailure = true; } }`
with field initializers `_value = null`, `_err = null`, `_isFailure = false`.
Note the truthiness guards: a falsy `v` (such as `0`) leaves `_value` at
`null`, and a falsy `e` leaves the Result a Success. -/
def ResultImpl.new (v e : JSVal) : ResultImpl :=
  ResultImpl.mk (if truthy v then v else JSVal.null)
    (if truthy e then e else JSVal.null)
    (truthy e)

/-- `ResultImpl.succeed(v) = new ResultImpl(v)`: the missing second
argument is `undefined`. -/
def ResultImpl.succeed (v : JSVal) : ResultImpl :=
  ResultImpl.new v JSVal.undef

/-- `ResultImpl.fail(e) = new ResultImpl(null as any, e)`. -/
def ResultImpl.fail (e : JSVal) : ResultImpl :=
  ResultImpl.new JSVal.null e

/-- The `succeed` factory of `factories.ts` delegates to `ResultImpl.succeed`. -/
def succeed (v : JSVal) : ResultImpl :=
  ResultImpl.succeed v

/-- The `fail` factory delegates to `ResultImpl.fail`. -/
def fail (e : JSVal) : ResultImpl :=
  ResultImpl.fail e

/-- The `defect` factory (later name of `fail`, see CHANGELOGS 0.4.1):
`ResultImpl.defect(e) = new ResultImpl(null as any, e)`. -/
def defect (e : JSVal) : ResultImpl :=
  ResultImpl.fail e

/-- `isSuccess = () => !this._isFailure`. -/
def ResultImpl.isSuccess (r : ResultImpl) : Bool :=
  !r.isFailF

/-- `isFailure = () => this._isFailure`. -/
def ResultImpl.isFailure (r : ResultImpl) : Bool :=
  r.isFailF

/-- `value()` — throws `Error('Cannot get value from Failure')` on a
Failure, otherwise returns `_value`.  The thrown `Error` object is
embedded as a `JSVal.str` of its message. -/
def ResultImpl.value (r : ResultImpl) : Except JSVal JSVal :=
  if r.isFailF then Except.error (JSVal.str "Cannot get value from Failure")
  else Except.ok r.valueF

/-- `error()` — returns `_err` (which is `null` for a Success). -/
def ResultImpl.error (r : ResultImpl) : JSVal :=
  r.errF

/-- `isResult` from `type-guards.ts`: `candidate instanceof ResultImpl`. -/
def isResultV : JSVal → Bool
  | JSVal.res _ => true
  | _ => false

/-- `isError` from `type-guards.ts`:
`typeof candidate[ErrorTag] === 'string'` — true exactly for objects
carrying the string discriminant. -/
def isErrorV : JSVal → Bool
  | JSVal.errVal _ _ => true
  | _ => false

/-- `candidate instanceof Promise`. -/
def isPromiseV : JSVal → Bool
  | JSVal.prom _ => true
  | _ => false

/-- Promise-resolution flattening: a promise fulfilled with a promise
adopts the inner promise's outcome (JS promises are never fulfilled with
a promise).  Rejection reasons are not unwrapped. -/
def flatA : JSAsync → JSAsync
  | JSAsync.fulfilled (JSVal.prom a) => flatA a
  | a => a

/-- `Promise.resolve(v)` viewed as an outcome: a promise resolved with
`v` adopts `v`'s outcome when `v` is itself a promise. -/
def settleVal (v : JSVal) : JSAsync :=
  flatA (JSAsync.fulfilled v)

/-- `p.then(f)`: once `p` is fulfilled, run `f` on the settled value and
adopt the (possibly asynchronous) outcome of `f`; a rejection of `p`
short-circuits. -/
def thenF (a : JSAsync) (f : JSVal → JSVal) : JSAsync :=
  match flatA a with
  | JSAsync.fulfilled v => settleVal (f v)
  | JSAsync.rejected r => JSAsync.rejected r

deriving instance DecidableEq for JSVal

deriving instance DecidableEq for JSAsync

deriving instance DecidableEq for ResultImpl

/-! ## Matching machinery

An `ErrorCases` mapping (`{ [tag]: handler }`) is embedded as a partial
map from discriminant strings to handler functions; an absent key is
`none` (JS: `undefined`, falsy).  `error[ErrorTag]` on an object without
the discriminant is `undefined`, which as a property key reads as the
string `"undefined"`. -/

/-- The property key produced by `error[ErrorTag]` (the discriminant for
a structured error, the string `"undefined"` otherwise). -/
def errorTagStr : JSVal → String
  | JSVal.errVal tag _ => tag
  | _ => "undefined"

/-- `handleErrorCase(error, errorCases)` from `result.implementation.ts`:
look up `errorCases[error[ErrorTag]]`; call the handler if present
(handlers are functions, hence truthy), otherwise
`throw new Error('Unhandled error: ' + tag)`. -/
def handleErrorCase (error : JSVal) (errorCases : String → Option (JSVal → JSVal)) :
    Except JSVal JSVal :=
  match errorCases (errorTagStr error) with
  | some errorHandler => Except.ok (errorHandler error)
  | none => Except.error (JSVal.str ("Unhandled error: " ++ errorTagStr error))

/-- The argument of `unwrap`: either a single catch-all function
(`typeof handler === 'function'`) or an `ErrorCases` mapping. -/
inductive UnwrapHandler : Type where
  | fnH (handler : JSVal → JSVal) : UnwrapHandler
  | casesH (cases : String → Option (JSVal → JSVal)) : UnwrapHandler

/-- `unwrap(handler)`:
`if (!this._isFailure) return this._value;` then dispatch on the shape of
the handler; a cases-mapping goes through `handleErrorCase` (which throws
on a missing key). -/
def ResultImpl.unwrap (r : ResultImpl) (handler : UnwrapHandler) : Except JSVal JSVal :=
  if !r.isFailF then Except.ok r.valueF
  else match handler with
    | UnwrapHandler.fnH h => Except.ok (h r.errF)
    | UnwrapHandler.casesH cases => handleErrorCase r.errF cases

/-- A `MatchCases` mapping: the mandatory `Success` handler plus the
error-discriminant handlers. -/
structure MatchCasesT : Type where
  success : JSVal → JSVal
  errorCases : String → Option (JSVal → JSVal)

/-- The `match` method of `ResultImpl` (named `matchCases` here because
`match` is a Lean keyword): on Success call `cases.Success(this.value())`
(the `value()` call cannot throw, being guarded by `isSuccess()`);
otherwise dispatch through `handleErrorCase`. -/
def ResultImpl.matchCases (r : ResultImpl) (cases : MatchCasesT) : Except JSVal JSVal :=
  if r.isSuccess then Except.ok (cases.success r.valueF)
  else handleErrorCase r.errF cases.errorCases

/-- `matchErrors` as in `src/result.implementation.ts` (lines 82–89): on
Success `return this` — the original Result object; otherwise dispatch
through `handleErrorCase`. -/
def ResultImpl.matchErrors (r : ResultImpl) (errorCases : String → Option (JSVal → JSVal)) :
    Except JSVal JSVal :=
  if r.isSuccess then Except.ok (JSVal.res r)
  else handleErrorCase r.errF errorCases

/-- `matchErrors` as in the later `ResultImpl` revision embedded in
`src/type-guards.ts` (lines 125–134) and declared in
`src/result.interface.ts` (`Value | ErrorCaseReturns<...>`): on Success
`return this.value()` — the held value, not the Result (the `value()`
call is guarded by `isSuccess()`). -/
def ResultImplV2.matchErrors (r : ResultImpl) (errorCases : String → Option (JSVal → JSVal)) :
    Except JSVal JSVal :=
  if r.isSuccess then Except.ok r.valueF
  else handleErrorCase r.errF errorCases

/-! ## Operators

The operator-producing functions take the user callback and return a
function on Results.  In the sources a Result-typed parameter can only
ever receive a `ResultImpl`; `toOperator` lifts such a function to the
`JSVal`-level pipeline state (a non-Result argument would be a JS
`TypeError`; it never occurs in any run considered here, and is mapped to
`undefined`). -/

/-- Lift an operator on Results to the pipeline state. -/
def toOperator (f : ResultImpl → JSVal) : JSVal → JSVal :=
  fun x =>
    match x with
    | JSVal.res r => f r
    | _ => JSVal.undef

/-- `map(fn)` from `src/operators/operators.ts`: on Success wrap `fn`'s
output in a new Success; on Failure rebuild the Failure from the same
error (`ResultImpl.fail(result.error()!)`). -/
def map (fn : JSVal → JSVal) (result : ResultImpl) : JSVal :=
  if result.isSuccess then JSVal.res (succeed (fn result.valueF))
  else JSVal.res (ResultImpl.fail result.errF)

/-- `mapErr(fn)` from `src/operators/operators.ts` (lines 35–46): on
Failure run `fn` on the error; a promise result is chained with
`fail`, a plain result is wrapped in `fail` directly; on Success rebuild
a Success from the held value. -/
def mapErr (fn : JSVal → JSVal) (result : ResultImpl) : JSVal :=
  if result.isFailure then
    match fn result.errF with
    | JSVal.prom a => JSVal.prom (thenF a (fun err => JSVal.res (fail err)))
    | fnRes => JSVal.res (fail fnRes)
  else JSVal.res (ResultImpl.succeed result.valueF)

/-- `chain(fn)` from `src/operators/operators.ts` (lines 56–74): on
Success run `fn` on the held value and normalize its return shape — a
Result passes through as-is, an error-shaped value becomes a new Failure,
anything else becomes a new Success; on Failure rebuild the Failure. -/
def chain (fn : JSVal → JSVal) (result : ResultImpl) : JSVal :=
  if result.isSuccess then
    let fnValue := fn result.valueF
    if isResultV fnValue then fnValue
    else if isErrorV fnValue then JSVal.res (ResultImpl.fail fnValue)
    else JSVal.res (succeed fnValue)
  else JSVal.res (ResultImpl.fail result.errF)

/-- `chainErr(fn)` from `src/operators/operators.ts` (lines 84–101):
symmetric to `chain`, acting on the Failure branch; on Success rebuild a
Success from the held value. -/
def chainErr (fn : JSVal → JSVal) (result : ResultImpl) : JSVal :=
  if result.isFailure then
    let fnValue := fn result.errF
    if isResultV fnValue then fnValue
    else if isErrorV fnValue then JSVal.res (ResultImpl.fail fnValue)
    else JSVal.res (succeed fnValue)
  else JSVal.res (ResultImpl.succeed result.valueF)

/-- `tap(fn)` from the later operators revision: on Success run the side
effect; when it returns a promise, return `fnRes.then(() => result)` —
the original Result, after the side effect settles; otherwise return the
original Result directly. -/
def tap (fn : JSVal → JSVal) (result : ResultImpl) : JSVal :=
  if result.isSuccess then
    match fn result.valueF with
    | JSVal.prom a => JSVal.prom (thenF a (fun _ => JSVal.res result))
    | _ => JSVal.res result
  else JSVal.res result

/-- `catchErr(fn)` from the later operators revision (the async-capable
side-effect operator on the Failure branch): run the side effect but
ignore its return value — in particular an async side effect's promise is
discarded, and the original Result is returned synchronously. -/
def catchErr (fn : JSVal → JSVal) (result : ResultImpl) : JSVal :=
  if result.isFailure then
    let _ := fn result.errF
    JSVal.res result
  else JSVal.res result

/-! ## Pipeline composition -/

/-- The `identity` helper of `result.implementation.ts`. -/
def identity (x : JSVal) : JSVal := x

/-- `unwrapPromiseInResult(result)` from `src/result.implementation.ts`
(lines 369–387; identical in `src/type-guards.ts` lines 983–1003 up to
the `fail`/`defect` renaming): if a settled Result holds a promise in its
payload, await it and re-wrap; note that the Success branch wraps every
non-Result settled value (error-shaped ones included) in `succeed`, and
the Failure branch has no final `else` — a settled value that is neither
a Result nor error-shaped makes the callback return `undefined`. -/
def unwrapPromiseInResult (x : JSVal) : JSVal :=
  match x with
  | JSVal.res r =>
    if r.isSuccess then
      match r.valueF with
      | JSVal.prom a =>
        JSVal.prom (thenF a (fun value =>
          if isResultV value then value else JSVal.res (succeed value)))
      | _ => x
    else
      match r.errF with
      | JSVal.prom a =>
        JSVal.prom (thenF a (fun error =>
          if isResultV error then error
          else if isErrorV error then JSVal.res (fail error)
          else JSVal.undef))
      | _ => x
  | v => v

/-- `applyOperator(fn, input)` from `result.implementation.ts` (lines
361–367): a pending pipeline state defers the operator to settlement
(`input.then(v => fn(v))`); a concrete state is transformed directly. -/
def applyOperator (fn : JSVal → JSVal) (input : JSVal) : JSVal :=
  match input with
  | JSVal.prom a => JSVal.prom (thenF a fn)
  | v => fn v

/-- One iteration of the `reduce` body inside `pipeFromArray`: apply the
operator, then normalize nested promises with `unwrapPromiseInResult`
(chained through `then` when the intermediate state is itself pending). -/
def pipeStep (fn : JSVal → JSVal) (prev : JSVal) : JSVal :=
  match applyOperator fn prev with
  | JSVal.prom a => JSVal.prom (thenF a unwrapPromiseInResult)
  | v => unwrapPromiseInResult v

/-- `pipeFromArray(operators)` from `result.implementation.ts` (lines
343–359): the empty list yields `identity`; otherwise the operators are
folded left-to-right by `pipeStep` starting from the input. -/
def pipeFromArray (operators : List (JSVal → JSVal)) : JSVal → JSVal :=
  match operators with
  | [] => identity
  | _ => fun input => operators.foldl (fun prev fn => pipeStep fn prev) input

/-- The `pipe` method: `pipeFromArray(operators)(this)`. -/
def ResultImpl.pipe (r : ResultImpl) (operators : List (JSVal → JSVal)) : JSVal :=
  pipeFromArray operators (JSVal.res r)

/-! ## The safe factory -/

/-- The second argument of `safe`: omitted, an error-producing function,
or an error value.  The function may itself throw (`Except.error`). -/
def ErrorOrHandler : Type :=
  Option (Sum (JSVal → Except JSVal JSVal) JSVal)

/-- `handleExceptionDuringSafe(ex, errorHandler)` from `src/factories.ts`
(lines 90–105): `if (!errorHandler)` (omitted or falsy) build the generic
`UnknownError` retaining the raw exception; a function handler is called
on the exception (uncaught if it throws); otherwise the supplied error
value is used directly. -/
def handleExceptionDuringSafe (ex : JSVal) (errorHandler : ErrorOrHandler) :
    Except JSVal ResultImpl :=
  match errorHandler with
  | none => Except.ok (defect (JSVal.errVal "UnknownError" ex))
  | some (Sum.inl errorFactory) =>
    match errorFactory ex with
    | Except.ok e => Except.ok (defect e)
    | Except.error hex => Except.error hex
  | some (Sum.inr e) =>
    if truthy e then Except.ok (defect e)
    else Except.ok (defect (JSVal.errVal "UnknownError" ex))

/-- `safe(fn, errorOrHandler?)` from `src/factories.ts` (lines 52–88):
run `fn`; a synchronous throw is routed to `handleExceptionDuringSafe`;
a returned promise becomes
`value.then(v => succeed(v)).catch(ex => handleExceptionDuringSafe(ex, h))`
(whose result rejects when the handler itself throws); a plain returned
value becomes `succeed(value)`. -/
def safe (fn : Unit → Except JSVal JSVal) (errorHandler : ErrorOrHandler) :
    Except JSVal JSVal :=
  match fn () with
  | Except.ok value =>
    match value with
    | JSVal.prom a =>
      Except.ok (JSVal.prom (
        match flatA a with
        | JSAsync.fulfilled v => JSAsync.fulfilled (JSVal.res (succeed v))
        | JSAsync.rejected ex =>
          match handleExceptionDuringSafe ex errorHandler with
          | Except.ok r => JSAsync.fulfilled (JSVal.res r)
          | Except.error hex => JSAsync.rejected hex))
    | v => Except.ok (JSVal.res (succeed v))
  | Except.error ex =>
    match handleExceptionDuringSafe ex errorHandler with
    | Except.ok r => Except.ok (JSVal.res r)
    | Except.error hex => Except.error hex

/-! ## Shared helper lemmas -/

/-- A fulfilled outcome whose value is not a promise is already flat. -/
theorem flatA_fulfilled_of_not_promise {w : JSVal} (hw : isPromiseV w = false) :
    flatA (JSAsync.fulfilled w) = JSAsync.fulfilled w := by
  cases w <;> simp_all [flatA, isPromiseV]

/-- A rejected outcome is already flat. -/
theorem flatA_rejected (reason : JSVal) :
    flatA (JSAsync.rejected reason) = JSAsync.rejected reason := rfl

/-- Evaluation of `then` on a fulfilled promise with a non-promise value. -/
theorem thenF_fulfilled {w : JSVal} (f : JSVal → JSVal) (hw : isPromiseV w = false) :
    thenF (JSAsync.fulfilled w) f = settleVal (f w) := by
  simp [thenF, flatA_fulfilled_of_not_promise hw]

/-- A non-promise value settles to itself. -/
theorem settleVal_of_not_promise {w : JSVal} (hw : isPromiseV w = false) :
    settleVal w = JSAsync.fulfilled w := by
  simp [settleVal, flatA_fulfilled_of_not_promise hw]

/-- Unfolding of `succeed`: the error slot is `null` and the failure flag
is `false`; the value slot keeps the truthiness guard. -/
theorem succeed_eq (v : JSVal) :
    succeed v = ResultImpl.mk (if truthy v then v else JSVal.null) JSVal.null false := rfl

/-- Unfolding of `fail`. -/
theorem fail_eq (e : JSVal) :
    fail e = ResultImpl.mk JSVal.null (if truthy e then e else JSVal.null) (truthy e) := rfl

/-! ## Claims -/

/-- C1: the claim asserts that for every value `v` — including falsy
values such as `0`, `""` and `false` — `succeed(v)` is a Success with
`value() = v` and `error() = null`.  The constructor's truthiness guard
`if (v) this._value = v` drops falsy payloads: `succeed(0)` is indeed a
Success with `error() = null`, but `value()` returns `null`, not `0`
(likewise for `""` and `false`).  This theorem evaluates the embedded
code at the failing inputs. -/
theorem succeed_falsy_value_dropped :
    (succeed (JSVal.num 0)).isSuccess = true
    ∧ (succeed (JSVal.num 0)).error = JSVal.null
    ∧ (succeed (JSVal.num 0)).value = Except.ok JSVal.null
    ∧ JSVal.null ≠ JSVal.num 0
    ∧ (succeed (JSVal.str "")).value = Except.ok JSVal.null
    ∧ (succeed (JSVal.bool false)).value = Except.ok JSVal.null
    ∧ (succeed (JSVal.num 5)).value = Except.ok (JSVal.num 5) :=
  ⟨rfl, rfl, rfl, by decide, rfl, rfl, rfl⟩

/-- C9: piping with zero operators is the identity — `r.pipe()` goes
through `pipeFromArray([]) = identity` and returns the very same Result
object, hence trivially one equal in observable state. -/
theorem pipe_zero_operators_identity (r : ResultImpl) :
    ResultImpl.pipe r [] = JSVal.res r := rfl

/-- C3: for all structured errors `e1`, `e2`, `e3`,
`fail(e1).pipe(mapErr(async e => e2), chainErr(async e => fail(e3)))`
is a pending computation that resolves to the concrete Failure
`fail(e3)` — not to a Result holding an unresolved pending computation. -/
theorem chained_async_failure_resolves (t1 t2 t3 : String) (d1 d2 d3 : JSVal) :
    ResultImpl.pipe (fail (JSVal.errVal t1 d1))
      [toOperator (mapErr (fun _ => JSVal.prom (JSAsync.fulfilled (JSVal.errVal t2 d2)))),
       toOperator (chainErr (fun _ =>
         JSVal.prom (JSAsync.fulfilled (JSVal.res (fail (JSVal.errVal t3 d3))))))]
    = JSVal.prom (JSAsync.fulfilled (JSVal.res (fail (JSVal.errVal t3 d3)))) := rfl

/-- C2 counterexample: the claim asserts that when a settled Result holds
a pending computation in its payload, a resolved error-shaped value
becomes a Failure and any other resolved value becomes a Success, in
both payload branches.  At these concrete inputs the code disagrees on
both counts: in the Success branch an error-shaped resolved value is
wrapped by `succeed` (yielding a Success, not a Failure), and in the
Failure branch a resolved plain value falls off the end of the callback,
so the promise resolves to `undefined`, not to a Success. -/
theorem unwrapPromiseInResult_branch_counterexample :
    unwrapPromiseInResult
        (JSVal.res (succeed (JSVal.prom (JSAsync.fulfilled (JSVal.errVal "E" JSVal.null)))))
      = JSVal.prom (JSAsync.fulfilled (JSVal.res (succeed (JSVal.errVal "E" JSVal.null))))
    ∧ (succeed (JSVal.errVal "E" JSVal.null)).isFailure = false
    ∧ unwrapPromiseInResult
        (JSVal.res (fail (JSVal.prom (JSAsync.fulfilled (JSVal.num 7)))))
      = JSVal.prom (JSAsync.fulfilled JSVal.undef)
    ∧ JSVal.undef ≠ JSVal.res (succeed (JSVal.num 7)) :=
  ⟨rfl, rfl, rfl, by decide⟩

/-- C2 amended: after each pipeline step, a pending computation in the
settled Result's payload is awaited and re-wrapped as follows.  Success
branch: a resolved inner Result passes through as-is and every other
resolved value — error-shaped ones included — becomes a Success.
Failure branch: a resolved inner Result passes through as-is, a resolved
error-shaped value becomes a Failure, and any other resolved value
yields a promise of `undefined` (no Result).  A Result with no pending
payload is returned unchanged. -/
theorem unwrapPromiseInResult_normalization :
    (∀ r' : ResultImpl,
      unwrapPromiseInResult (JSVal.res (succeed (JSVal.prom (JSAsync.fulfilled (JSVal.res r')))))
        = JSVal.prom (JSAsync.fulfilled (JSVal.res r')))
    ∧ (∀ w : JSVal, isPromiseV w = false → isResultV w = false →
      unwrapPromiseInResult (JSVal.res (succeed (JSVal.prom (JSAsync.fulfilled w))))
        = JSVal.prom (JSAsync.fulfilled (JSVal.res (succeed w))))
    ∧ (∀ r' : ResultImpl,
      unwrapPromiseInResult (JSVal.res (fail (JSVal.prom (JSAsync.fulfilled (JSVal.res r')))))
        = JSVal.prom (JSAsync.fulfilled (JSVal.res r')))
    ∧ (∀ (t : String) (d : JSVal),
      unwrapPromiseInResult (JSVal.res (fail (JSVal.prom (JSAsync.fulfilled (JSVal.errVal t d)))))
        = JSVal.prom (JSAsync.fulfilled (JSVal.res (fail (JSVal.errVal t d)))))
    ∧ (∀ w : JSVal, isPromiseV w = false → isResultV w = false → isErrorV w = false →
      unwrapPromiseInResult (JSVal.res (fail (JSVal.prom (JSAsync.fulfilled w))))
        = JSVal.prom (JSAsync.fulfilled JSVal.undef))
    ∧ (∀ r : ResultImpl, isPromiseV r.valueF = false → isPromiseV r.errF = false →
      unwrapPromiseInResult (JSVal.res r) = JSVal.res r) := by
  refine ⟨fun r' => rfl, ?_, fun r' => rfl, fun t d => rfl, ?_, ?_⟩
  · intro w hp hr
    cases w with
    | res r => exact absurd hr (by simp [isResultV])
    | prom a => exact absurd hp (by simp [isPromiseV])
    | null => rfl
    | undef => rfl
    | bool b => rfl
    | num n => rfl
    | str s => rfl
    | errVal t d => rfl
  · intro w hp hr he
    cases w with
    | res r => exact absurd hr (by simp [isResultV])
    | errVal t d => exact absurd he (by simp [isErrorV])
    | prom a => exact absurd hp (by simp [isPromiseV])
    | null => rfl
    | undef => rfl
    | bool b => rfl
    | num n => rfl
    | str s => rfl
  · intro r hv he
    rcases r with ⟨v, e, b⟩
    cases b <;> cases v <;> cases e <;>
      simp_all [unwrapPromiseInResult, isPromiseV, ResultImpl.isSuccess,
        ResultImpl.isFailF, ResultImpl.valueF, ResultImpl.errF]

/-- C2 witness: the amended normalization evaluated at concrete inputs
with every hypothesis discharged. -/
theorem unwrapPromiseInResult_normalization_witness :
    isPromiseV (JSVal.num 3) = false ∧ isResultV (JSVal.num 3) = false
    ∧ isErrorV (JSVal.num 3) = false
    ∧ unwrapPromiseInResult (JSVal.res (succeed (JSVal.prom (JSAsync.fulfilled (JSVal.num 3)))))
        = JSVal.prom (JSAsync.fulfilled (JSVal.res (succeed (JSVal.num 3))))
    ∧ unwrapPromiseInResult (JSVal.res (fail (JSVal.prom (JSAsync.fulfilled (JSVal.num 3)))))
        = JSVal.prom (JSAsync.fulfilled JSVal.undef) :=
  ⟨rfl, rfl, rfl,
    unwrapPromiseInResult_normalization.2.1 (JSVal.num 3) rfl rfl,
    unwrapPromiseInResult_normalization.2.2.2.2.1 (JSVal.num 3) rfl rfl rfl⟩

/-- C4 counterexample: the claim asserts that no step begins before the
previous step's result — including a pending computation from an async
`catchErr` side effect — has fully settled.  At this concrete input the
`catchErr` side effect returns a pending computation, yet the pipeline
completes synchronously with a concrete (non-pending) Result, and a
subsequent `mapErr` step is applied synchronously as well: the discarded
side-effect promise never gates the pipeline. -/
theorem catchErr_async_sideEffect_not_awaited :
    ((fun _ => JSVal.prom (JSAsync.fulfilled JSVal.undef)) (JSVal.errVal "E" JSVal.null))
      = JSVal.prom (JSAsync.fulfilled JSVal.undef)
    ∧ ResultImpl.pipe (fail (JSVal.errVal "E" JSVal.null))
        [toOperator (catchErr (fun _ => JSVal.prom (JSAsync.fulfilled JSVal.undef)))]
      = JSVal.res (fail (JSVal.errVal "E" JSVal.null))
    ∧ isPromiseV (ResultImpl.pipe (fail (JSVal.errVal "E" JSVal.null))
        [toOperator (catchErr (fun _ => JSVal.prom (JSAsync.fulfilled JSVal.undef)))]) = false
    ∧ ResultImpl.pipe (fail (JSVal.errVal "E" JSVal.null))
        [toOperator (catchErr (fun _ => JSVal.prom (JSAsync.fulfilled JSVal.undef))),
         toOperator (mapErr (fun er => JSVal.errVal "M" er))]
      = JSVal.res (fail (JSVal.errVal "M" (JSVal.errVal "E" JSVal.null))) :=
  ⟨rfl, rfl, rfl, rfl⟩

/-- C4 amended: operators are applied strictly left-to-right; when the
pipeline state is a pending computation, the next operator is applied
only to its settled value (`applyOperator` defers through `then`), and
`tap`'s async side effect is awaited before the original Result is
returned.  However a pending computation produced by an async `catchErr`
side effect is discarded: `catchErr` returns the original Result
synchronously, so the next operator can begin before that side effect
has settled. -/
theorem pipeline_sequencing_amended :
    (∀ (fn : JSVal → JSVal) (a : JSAsync),
      applyOperator fn (JSVal.prom a) = JSVal.prom (thenF a fn))
    ∧ (∀ (fn : JSVal → JSVal) (r : ResultImpl), r.isFailF = true →
      catchErr fn r = JSVal.res r)
    ∧ (∀ (fn : JSVal → JSVal) (r : ResultImpl) (a : JSAsync), r.isFailF = false →
      fn r.valueF = JSVal.prom a →
      tap fn r = JSVal.prom (thenF a (fun _ => JSVal.res r))) := by
  refine ⟨fun fn a => rfl, ?_, ?_⟩
  · intro fn r h
    simp [catchErr, ResultImpl.isFailure, h]
  · intro fn r a h hfn
    simp [tap, ResultImpl.isSuccess, h, hfn]

/-- C4 witness: the amended sequencing facts at concrete inputs with the
hypotheses discharged. -/
theorem pipeline_sequencing_amended_witness :
    (fail (JSVal.errVal "E" JSVal.null)).isFailF = true
    ∧ catchErr (fun _ => JSVal.prom (JSAsync.fulfilled JSVal.undef))
        (fail (JSVal.errVal "E" JSVal.null))
      = JSVal.res (fail (JSVal.errVal "E" JSVal.null))
    ∧ (succeed (JSVal.num 1)).isFailF = false
    ∧ tap (fun _ => JSVal.prom (JSAsync.fulfilled JSVal.undef)) (succeed (JSVal.num 1))
      = JSVal.prom (thenF (JSAsync.fulfilled JSVal.undef)
          (fun _ => JSVal.res (succeed (JSVal.num 1)))) :=
  ⟨rfl,
    pipeline_sequencing_amended.2.1 (fun _ => JSVal.prom (JSAsync.fulfilled JSVal.undef))
      (fail (JSVal.errVal "E" JSVal.null)) rfl,
    rfl,
    pipeline_sequencing_amended.2.2 (fun _ => JSVal.prom (JSAsync.fulfilled JSVal.undef))
      (succeed (JSVal.num 1)) (JSAsync.fulfilled JSVal.undef) rfl rfl⟩

/-- C5 counterexample: the claim asserts `chain(f)` applied to
`succeed(v)` yields exactly `f(v)` whenever `f(v)` is a Result.  For the
falsy value `v = 0` the constructor's truthiness guard stores `null`, so
`chain` feeds `null` — not `0` — to `f`: with
`f = x => fail({tag:"T", data:x})` the pipeline yields `f(null)`, which
differs from `f(0)`. -/
theorem chain_succeed_falsy_counterexample :
    chain (fun x => JSVal.res (fail (JSVal.errVal "T" x))) (succeed (JSVal.num 0))
      = JSVal.res (fail (JSVal.errVal "T" JSVal.null))
    ∧ (fun x => JSVal.res (fail (JSVal.errVal "T" x))) (JSVal.num 0)
      = JSVal.res (fail (JSVal.errVal "T" (JSVal.num 0)))
    ∧ JSVal.res (fail (JSVal.errVal "T" JSVal.null))
      ≠ JSVal.res (fail (JSVal.errVal "T" (JSVal.num 0))) :=
  ⟨rfl, rfl, by decide⟩

/-- C5 amended: `chain` and `chainErr` normalize the three possible
return shapes of the user function — a Result instance passes through
as-is with no re-wrapping, a bare error-shaped value becomes a new
Failure, and any other bare value becomes a new Success; in particular
`chain(f)` applied to `succeed(v)` yields exactly `f(v)` when `f(v)` is
a Result, provided `v` is truthy (for falsy `v` the constructor stores
`null`, so `f` receives `null` instead of `v`). -/
theorem chain_chainErr_normalization :
    (∀ (v : JSVal) (f : JSVal → JSVal), truthy v = true → isResultV (f v) = true →
      chain f (succeed v) = f v)
    ∧ (∀ (v : JSVal) (f : JSVal → JSVal) (t : String) (d : JSVal), truthy v = true →
      f v = JSVal.errVal t d → chain f (succeed v) = JSVal.res (fail (JSVal.errVal t d)))
    ∧ (∀ (v w : JSVal) (f : JSVal → JSVal), truthy v = true → f v = w →
      isResultV w = false → isErrorV w = false →
      chain f (succeed v) = JSVal.res (succeed w))
    ∧ (∀ (t : String) (d : JSVal) (g : JSVal → JSVal),
      isResultV (g (JSVal.errVal t d)) = true →
      chainErr g (fail (JSVal.errVal t d)) = g (JSVal.errVal t d))
    ∧ (∀ (t t' : String) (d d' : JSVal) (g : JSVal → JSVal),
      g (JSVal.errVal t d) = JSVal.errVal t' d' →
      chainErr g (fail (JSVal.errVal t d)) = JSVal.res (fail (JSVal.errVal t' d')))
    ∧ (∀ (t : String) (d w : JSVal) (g : JSVal → JSVal),
      g (JSVal.errVal t d) = w → isResultV w = false → isErrorV w = false →
      chainErr g (fail (JSVal.errVal t d)) = JSVal.res (succeed w)) := by
  refine ⟨?_, ?_, ?_, ?_, ?_, ?_⟩
  · intro v f hv hres
    simp [chain, succeed_eq, hv,
      ResultImpl.isSuccess, ResultImpl.isFailF, ResultImpl.valueF, hres]
  · intro v f t d hv hfe
    simp [chain, succeed_eq, hv, fail,
      ResultImpl.isSuccess, ResultImpl.isFailF, ResultImpl.valueF, hfe,
      isResultV, isErrorV]
  · intro v w f hv hfw hr he
    simp [chain, succeed_eq, hv,
      ResultImpl.isSuccess, ResultImpl.isFailF, ResultImpl.valueF, hfw, hr, he]
  · intro t d g hres
    simp [chainErr, fail, ResultImpl.fail, ResultImpl.new, truthy,
      ResultImpl.isFailure, ResultImpl.isFailF, ResultImpl.errF, hres]
  · intro t t' d d' g hg
    simp [chainErr, fail, ResultImpl.fail, ResultImpl.new, truthy,
      ResultImpl.isFailure, ResultImpl.isFailF, ResultImpl.errF, hg,
      isResultV, isErrorV]
  · intro t d w g hg hr he
    simp [chainErr, fail, ResultImpl.fail, ResultImpl.new, truthy,
      ResultImpl.isFailure, ResultImpl.isFailF, ResultImpl.errF, hg, hr, he]

/-- C5 witness: the normalization at concrete inputs with every
hypothesis discharged. -/
theorem chain_chainErr_normalization_witness :
    truthy (JSVal.num 2) = true
    ∧ isResultV ((fun x => JSVal.res (succeed x)) (JSVal.num 2)) = true
    ∧ chain (fun x => JSVal.res (succeed x)) (succeed (JSVal.num 2))
        = (fun x => JSVal.res (succeed x)) (JSVal.num 2)
    ∧ isResultV ((fun _ => JSVal.res (succeed (JSVal.num 9))) (JSVal.errVal "T" JSVal.null)) = true
    ∧ chainErr (fun _ => JSVal.res (succeed (JSVal.num 9))) (fail (JSVal.errVal "T" JSVal.null))
        = JSVal.res (succeed (JSVal.num 9)) :=
  ⟨rfl, rfl,
    chain_chainErr_normalization.1 (JSVal.num 2) (fun x => JSVal.res (succeed x)) rfl rfl,
    rfl,
    chain_chainErr_normalization.2.2.2.1 "T" JSVal.null
      (fun _ => JSVal.res (succeed (JSVal.num 9))) rfl⟩

/-- C6: programmer-error faults are raised as language-level throws, not
Results: `value()` on any Failure throws, and `unwrap`, `match` and
`matchErrors` (both revisions) with a cases-mapping that has no handler
for the discriminant of the error actually present throw an
unhandled-error fault. -/
theorem programmer_error_faults :
    (∀ r : ResultImpl, r.isFailF = true →
      r.value = Except.error (JSVal.str "Cannot get value from Failure"))
    ∧ (∀ (t : String) (d : JSVal) (cases : String → Option (JSVal → JSVal)),
      cases t = none →
      ResultImpl.unwrap (fail (JSVal.errVal t d)) (UnwrapHandler.casesH cases)
        = Except.error (JSVal.str ("Unhandled error: " ++ t)))
    ∧ (∀ (t : String) (d : JSVal) (c : MatchCasesT), c.errorCases t = none →
      ResultImpl.matchCases (fail (JSVal.errVal t d)) c
        = Except.error (JSVal.str ("Unhandled error: " ++ t)))
    ∧ (∀ (t : String) (d : JSVal) (cases : String → Option (JSVal → JSVal)),
      cases t = none →
      ResultImpl.matchErrors (fail (JSVal.errVal t d)) cases
        = Except.error (JSVal.str ("Unhandled error: " ++ t))
      ∧ ResultImplV2.matchErrors (fail (JSVal.errVal t d)) cases
        = Except.error (JSVal.str ("Unhandled error: " ++ t))) := by
  refine ⟨?_, ?_, ?_, ?_⟩
  · intro r h
    simp [ResultImpl.value, h]
  · intro t d cases h
    simp [ResultImpl.unwrap, fail, ResultImpl.fail, ResultImpl.new, truthy,
      ResultImpl.isFailF, ResultImpl.errF, handleErrorCase, errorTagStr, h]
  · intro t d c h
    simp [ResultImpl.matchCases, fail, ResultImpl.fail, ResultImpl.new, truthy,
      ResultImpl.isSuccess, ResultImpl.isFailF, ResultImpl.errF,
      handleErrorCase, errorTagStr, h]
  · intro t d cases h
    constructor
    · simp [ResultImpl.matchErrors, fail, ResultImpl.fail, ResultImpl.new, truthy,
        ResultImpl.isSuccess, ResultImpl.isFailF, ResultImpl.errF,
        handleErrorCase, errorTagStr, h]
    · simp [ResultImplV2.matchErrors, fail, ResultImpl.fail, ResultImpl.new, truthy,
        ResultImpl.isSuccess, ResultImpl.isFailF, ResultImpl.errF,
        handleErrorCase, errorTagStr, h]

/-- C6 witness: the faults at a concrete Failure whose discriminant has
no handler. -/
theorem programmer_error_faults_witness :
    (fail (JSVal.errVal "Oops" JSVal.null)).isFailF = true
    ∧ (fail (JSVal.errVal "Oops" JSVal.null)).value
        = Except.error (JSVal.str "Cannot get value from Failure")
    ∧ ((fun _ => none : String → Option (JSVal → JSVal)) "Oops" = none)
    ∧ ResultImpl.unwrap (fail (JSVal.errVal "Oops" JSVal.null))
        (UnwrapHandler.casesH (fun _ => none))
      = Except.error (JSVal.str ("Unhandled error: " ++ "Oops")) :=
  ⟨rfl,
    programmer_error_faults.1 (fail (JSVal.errVal "Oops" JSVal.null)) rfl,
    rfl,
    programmer_error_faults.2.1 "Oops" JSVal.null (fun _ => none) rfl⟩

/-- C7: the outcome taxonomy of `safe(fn, errorOrHandler?)`.  A plain
value returned without throwing becomes `succeed(value)`.  A synchronous
throw (or a rejection of the returned pending computation) builds a
Failure whose error is: the generic `UnknownError` structured error
retaining the raw exception when `errorOrHandler` is omitted; the
supplied structured error value itself; or the output of the handler
function applied to the raw exception. -/
theorem safe_outcome_taxonomy :
    (∀ (v : JSVal) (h : ErrorOrHandler), isPromiseV v = false →
      safe (fun _ => Except.ok v) h = Except.ok (JSVal.res (succeed v)))
    ∧ (∀ ex : JSVal,
      safe (fun _ => Except.error ex) none
        = Except.ok (JSVal.res (defect (JSVal.errVal "UnknownError" ex)))
      ∧ (defect (JSVal.errVal "UnknownError" ex)).isFailure = true
      ∧ (defect (JSVal.errVal "UnknownError" ex)).error = JSVal.errVal "UnknownError" ex)
    ∧ (∀ (ex : JSVal) (t : String) (d : JSVal),
      safe (fun _ => Except.error ex) (some (Sum.inr (JSVal.errVal t d)))
        = Except.ok (JSVal.res (defect (JSVal.errVal t d)))
      ∧ (defect (JSVal.errVal t d)).isFailure = true
      ∧ (defect (JSVal.errVal t d)).error = JSVal.errVal t d)
    ∧ (∀ (ex : JSVal) (h : JSVal → JSVal),
      safe (fun _ => Except.error ex) (some (Sum.inl (fun e => Except.ok (h e))))
        = Except.ok (JSVal.res (defect (h ex))))
    ∧ (∀ ex : JSVal,
      safe (fun _ => Except.ok (JSVal.prom (JSAsync.rejected ex))) none
        = Except.ok (JSVal.prom (JSAsync.fulfilled
            (JSVal.res (defect (JSVal.errVal "UnknownError" ex))))))
    ∧ (∀ (ex : JSVal) (t : String) (d : JSVal),
      safe (fun _ => Except.ok (JSVal.prom (JSAsync.rejected ex)))
          (some (Sum.inr (JSVal.errVal t d)))
        = Except.ok (JSVal.prom (JSAsync.fulfilled (JSVal.res (defect (JSVal.errVal t d))))))
    ∧ (∀ (ex : JSVal) (h : JSVal → JSVal),
      safe (fun _ => Except.ok (JSVal.prom (JSAsync.rejected ex)))
          (some (Sum.inl (fun e => Except.ok (h e))))
        = Except.ok (JSVal.prom (JSAsync.fulfilled (JSVal.res (defect (h ex)))))) := by
  refine ⟨?_, ?_, ?_, fun ex h => rfl, fun ex => rfl, ?_, fun ex h => rfl⟩
  · intro v h hv
    cases v with
    | prom a => exact absurd hv (by simp [isPromiseV])
    | null => rfl
    | undef => rfl
    | bool b => rfl
    | num n => rfl
    | str s => rfl
    | errVal t d => rfl
    | res r => rfl
  · intro ex
    exact ⟨rfl, rfl, rfl⟩
  · intro ex t d
    exact ⟨rfl, rfl, rfl⟩
  · intro ex t d
    rfl

/-- C7 witness: the taxonomy at concrete inputs, discharging the
non-promise hypothesis of the first clause. -/
theorem safe_outcome_taxonomy_witness :
    isPromiseV (JSVal.num 8) = false
    ∧ safe (fun _ => Except.ok (JSVal.num 8)) none = Except.ok (JSVal.res (succeed (JSVal.num 8)))
    ∧ safe (fun _ => Except.error (JSVal.str "boom")) none
        = Except.ok (JSVal.res (defect (JSVal.errVal "UnknownError" (JSVal.str "boom")))) :=
  ⟨rfl,
    safe_outcome_taxonomy.1 (JSVal.num 8) none rfl,
    (safe_outcome_taxonomy.2.1 (JSVal.str "boom")).1⟩

/-- C8 counterexample: the claim asserts `matchErrors(cases)` applied to
a Success returns the original Success unchanged.  In the later revision
(`ResultImplV2.matchErrors`, declared `Value | ErrorCaseReturns<...>` in
`result.interface.ts`) it returns the held value instead: on
`succeed(42)` the output is the bare number `42`, which is not a Result
at all. -/
theorem matchErrors_success_counterexample :
    ResultImplV2.matchErrors (succeed (JSVal.num 42)) (fun _ => none)
      = Except.ok (JSVal.num 42)
    ∧ isResultV (JSVal.num 42) = false
    ∧ JSVal.num 42 ≠ JSVal.res (succeed (JSVal.num 42)) :=
  ⟨rfl, rfl, by decide⟩

/-- C8 amended: on a Success neither revision invokes a handler; the
`result.implementation.ts` revision returns the original Success itself,
while the later revision returns the held value.  On the Failure branch
both dispatch the handler keyed by the error's discriminant. -/
theorem matchErrors_success_passthrough :
    (∀ (v : JSVal) (cases : String → Option (JSVal → JSVal)),
      ResultImpl.matchErrors (succeed v) cases = Except.ok (JSVal.res (succeed v)))
    ∧ (∀ (v : JSVal) (cases : String → Option (JSVal → JSVal)),
      ResultImplV2.matchErrors (succeed v) cases = Except.ok ((succeed v).valueF))
    ∧ (∀ (t : String) (d : JSVal) (cases : String → Option (JSVal → JSVal))
        (h : JSVal → JSVal), cases t = some h →
      ResultImpl.matchErrors (fail (JSVal.errVal t d)) cases
        = Except.ok (h (JSVal.errVal t d))
      ∧ ResultImplV2.matchErrors (fail (JSVal.errVal t d)) cases
        = Except.ok (h (JSVal.errVal t d))) := by
  refine ⟨fun v cases => rfl, fun v cases => rfl, ?_⟩
  intro t d cases h hc
  constructor
  · simp [ResultImpl.matchErrors, fail_eq, truthy, ResultImpl.isSuccess,
      ResultImpl.isFailF, ResultImpl.errF, handleErrorCase, errorTagStr, hc]
  · simp [ResultImplV2.matchErrors, fail_eq, truthy, ResultImpl.isSuccess,
      ResultImpl.isFailF, ResultImpl.errF, handleErrorCase, errorTagStr, hc]

/-- C8 witness: both revisions dispatch the present handler on a
concrete Failure, and the Success clauses at a concrete Success. -/
theorem matchErrors_success_passthrough_witness :
    ((fun _ => some (fun e => JSVal.errVal "Seen" e) : String → Option (JSVal → JSVal)) "E"
      = some (fun e => JSVal.errVal "Seen" e))
    ∧ ResultImpl.matchErrors (fail (JSVal.errVal "E" JSVal.null))
        (fun _ => some (fun e => JSVal.errVal "Seen" e))
      = Except.ok (JSVal.errVal "Seen" (JSVal.errVal "E" JSVal.null))
    ∧ ResultImpl.matchErrors (succeed (JSVal.num 1)) (fun _ => none)
      = Except.ok (JSVal.res (succeed (JSVal.num 1))) :=
  ⟨rfl,
    (matchErrors_success_passthrough.2.2 "E" JSVal.null
      (fun _ => some (fun e => JSVal.errVal "Seen" e)) (fun e => JSVal.errVal "Seen" e) rfl).1,
    matchErrors_success_passthrough.1 (JSVal.num 1) (fun _ => none)⟩

/-- C10: when `fn` throws (or its pending computation rejects) and the
supplied `errorOrHandler` is a function, `safe` calls it on the caught
exception with no protection: a throwing handler propagates its own
exception as a language-level fault (synchronously, or as a rejection of
the resulting promise) instead of returning a Failure; a handler that
returns a structured error always yields a Failure and the original
exception is not re-raised. -/
theorem safe_handler_exception_propagation :
    (∀ (ex hex : JSVal) (hfn : JSVal → Except JSVal JSVal), hfn ex = Except.error hex →
      safe (fun _ => Except.error ex) (some (Sum.inl hfn)) = Except.error hex)
    ∧ (∀ (ex hex : JSVal) (hfn : JSVal → Except JSVal JSVal), hfn ex = Except.error hex →
      safe (fun _ => Except.ok (JSVal.prom (JSAsync.rejected ex))) (some (Sum.inl hfn))
        = Except.ok (JSVal.prom (JSAsync.rejected hex)))
    ∧ (∀ (ex : JSVal) (t : String) (d : JSVal) (hfn : JSVal → Except JSVal JSVal),
      hfn ex = Except.ok (JSVal.errVal t d) →
      safe (fun _ => Except.error ex) (some (Sum.inl hfn))
        = Except.ok (JSVal.res (defect (JSVal.errVal t d)))
      ∧ (defect (JSVal.errVal t d)).isFailure = true) := by
  refine ⟨?_, ?_, ?_⟩
  · intro ex hex hfn hh
    simp [safe, handleExceptionDuringSafe, hh]
  · intro ex hex hfn hh
    simp [safe, handleExceptionDuringSafe, flatA, hh]
  · intro ex t d hfn hh
    refine ⟨?_, rfl⟩
    simp [safe, handleExceptionDuringSafe, hh]

/-- C10 witness: a throwing handler's exception propagates; a returning
handler yields a Failure. -/
theorem safe_handler_exception_propagation_witness :
    ((fun _ => Except.error (JSVal.str "handler fault") : JSVal → Except JSVal JSVal)
        (JSVal.str "boom") = Except.error (JSVal.str "handler fault"))
    ∧ safe (fun _ => Except.error (JSVal.str "boom"))
        (some (Sum.inl (fun _ => Except.error (JSVal.str "handler fault"))))
      = Except.error (JSVal.str "handler fault")
    ∧ safe (fun _ => Except.error (JSVal.str "boom"))
        (some (Sum.inl (fun e => Except.ok (JSVal.errVal "Mapped" e))))
      = Except.ok (JSVal.res (defect (JSVal.errVal "Mapped" (JSVal.str "boom")))) :=
  ⟨rfl,
    safe_handler_exception_propagation.1 (JSVal.str "boom") (JSVal.str "handler fault")
      (fun _ => Except.error (JSVal.str "handler fault")) rfl,
    (safe_handler_exception_propagation.2.2 (JSVal.str "boom") "Mapped" (JSVal.str "boom")
      (fun e => Except.ok (JSVal.errVal "Mapped" e)) rfl).1⟩
